import Mathlib

/-!
Verification development for the `instagram-downloader` web service
(`src/main_web.py`): a Flask job orchestrator with an in-memory job table,
per-client rate limiting, an asynchronous download worker, an SSE progress
stream, and a periodic janitor.

The definitions below are a shallow embedding of the Python source.  Each
definition cites the source lines it models.  Machine-level aspects are
abstracted as follows: `time.time()` timestamps are `Int` seconds, the
`yt_dlp` engine invocation is an oracle value (`EngineOutcome`) describing
what the call did, the filesystem walk is the list of `(root, files)` pairs
it visits, and Python dicts are association lists (`JobsMap`) or functions
(`RLMap`).
-/

namespace InstaWeb

/-! ### String helpers (Python string operations, ASCII content) -/

/-- Python `s.lower()` (the strings involved are ASCII). -/
def strLower (s : String) : String := String.mk (s.toList.map Char.toLower)

/-- Python `sub in s`: substring containment. -/
def strContains (s sub : String) : Bool := decide (sub.toList <:+: s.toList)

/-- Python `s.startswith(p)`. -/
def strStartsWith (s p : String) : Bool := decide (p.toList <+: s.toList)

/-- Python `s.endswith(p)`. -/
def strEndsWith (s p : String) : Bool := decide (p.toList <:+ s.toList)

/-- Models `os.path.join` with a POSIX separator (both join sites in the source
join a relative directory with a plain name). -/
def pathJoin (a b : String) : String := a ++ "/" ++ b

/-- Models `os.path.basename`: the part after the last separator. -/
def basename (s : String) : String :=
  String.mk ((s.toList.reverse.takeWhile (fun c => c ≠ '/')).reverse)

/-! ### Configuration constants (src/main_web.py lines 85-95, default values
of the environment overrides) -/

def RATE_LIMIT_COUNT : Nat := 5

def RATE_LIMIT_WINDOW : Int := 60 * 60

def RATE_LIMIT_CONCURRENT : Nat := 3

/-- Constant `BASE_DOWNLOAD_DIR` (line 94); the `os.path.dirname(__file__)` prefix is
abstracted away, only the string-level path structure matters. -/
def BASE_DOWNLOAD_DIR : String := "downloads"

/-! ### Data model: job records (the dicts stored in `jobs`) -/

inductive JobStatus
  | queued
  | running
  | ready
  | error
  deriving DecidableEq

/-- The `progress` dicts written at lines 161-171, 230 and 384.  The
`percent` field is a Python float `(downloaded/total)*100`; it is only ever
compared for equality by the SSE stream, so it is abstracted to an integer
value here. -/
inductive Progress
  | queued
  | started
  | downloading (downloaded : Int) (total : Option Int) (percent : Option Int) (eta : Option Int)
  | finished
  | perror (message : Option String)
  deriving DecidableEq

/-- The components of `urllib.parse.urlparse(url)` used by the validator
(lines 128-136).  `urlparse` itself is modelled as given: a URL is its
parsed `(scheme, netloc, path)` triple. -/
structure ParsedUrl where
  scheme : String
  netloc : String
  path : String
  deriving DecidableEq

/-- A job record: the dict created at lines 381-390, extended by the worker
with `temp_dir`, `filepath`, `filename`, `size`, `error` (absent keys are
`none`). -/
structure Job where
  id : String
  status : JobStatus
  progress : Progress
  created_at : Int
  format : String
  url : ParsedUrl
  ip : String
  proxy : Bool
  temp_dir : Option String
  filepath : Option String
  filename : Option String
  size : Option Int
  error : Option String
  deriving DecidableEq

/-- The `jobs` dict (line 80), as an association list; lookups take the
first binding, insertion replaces any previous binding. -/
abbrev JobsMap := List (String × Job)

def lookupJob (m : JobsMap) (k : String) : Option Job :=
  (m.find? (fun kv => kv.1 == k)).map (fun kv => kv.2)

/-- Dict assignment `jobs[job_id] = ...` (insert-or-replace). -/
def setJob (m : JobsMap) (k : String) (j : Job) : JobsMap :=
  (k, j) :: m.filter (fun kv => kv.1 != k)

/-- Field mutation `jobs[job_id][field] = v` for a present key.  (If the key
is absent the source raises `KeyError`; every mutation site is reached only
for a job that was inserted at line 381, so the absent case is modelled as a
no-op.) -/
def modifyJob (m : JobsMap) (k : String) (f : Job → Job) : JobsMap :=
  m.map (fun kv => if kv.1 == k then (kv.1, f kv.2) else kv)

/-- Models `jobs.pop(jid, None)` (line 193). -/
def eraseJob (m : JobsMap) (k : String) : JobsMap :=
  m.filter (fun kv => kv.1 != k)

/-!
### Job-table mutations

Every write to the shared `jobs` dict in the source happens inside a
`with jobs_lock:` block; `TableOp` has one constructor per distinct block, so
one `TableOp` = one lock acquisition:

* `create`      - lines 380-390 (the `/start` handler inserts the record);
* `beginRun`    - lines 227-230 (worker entry: `temp_dir`, `status=running`,
                  `progress={'status':'started'}`);
* `hook`        - lines 149-171 (the yt-dlp progress hook; writes only the
                  `progress` field and no-ops when the job is absent);
* `fail`        - lines 303-305, 310-312, 316-318, 331-333, 347-349
                  (`status='error'` plus the error message);
* `finishReady` - lines 336-343 (`status='ready'` plus `filepath`,
                  `filename`, `size`, all in one block);
* `reap`        - lines 190-193 (the janitor pops a record).
-/
inductive TableOp
  | create (job_id : String) (now : Int) (fmt : String) (url : ParsedUrl) (ip : String) (proxy : Bool)
  | beginRun (job_id : String) (temp_dir : String)
  | hook (job_id : String) (p : Progress)
  | fail (job_id : String) (msg : String)
  | finishReady (job_id : String) (filepath filename : String) (size : Option Int)
  | reap (job_id : String)
  deriving DecidableEq

/-- The record inserted by `/start` (lines 381-390): `status='queued'`,
`progress={'status':'queued'}`, no result fields yet. -/
def newJob (job_id : String) (now : Int) (fmt : String) (url : ParsedUrl) (ip : String) (proxy : Bool) : Job :=
  { id := job_id, status := .queued, progress := .queued, created_at := now,
    format := fmt, url := url, ip := ip, proxy := proxy,
    temp_dir := none, filepath := none, filename := none, size := none, error := none }

def applyOp (m : JobsMap) : TableOp → JobsMap
  | .create job_id now fmt url ip proxy => setJob m job_id (newJob job_id now fmt url ip proxy)
  | .beginRun job_id td =>
      modifyJob m job_id (fun j => { j with status := .running, progress := .started, temp_dir := some td })
  | .hook job_id p => modifyJob m job_id (fun j => { j with progress := p })
  | .fail job_id msg => modifyJob m job_id (fun j => { j with status := .error, error := some msg })
  | .finishReady job_id fp fn sz =>
      modifyJob m job_id (fun j => { j with status := .ready, filepath := some fp, filename := some fn, size := sz })
  | .reap job_id => eraseJob m job_id

def applyOps (m : JobsMap) (ops : List TableOp) : JobsMap :=
  ops.foldl applyOp m

/-- The status value an operation writes to its job's record (`none` for
operations that do not touch the `status` field). -/
def statusWrite : TableOp → Option JobStatus
  | .create _ _ _ _ _ _ => some .queued
  | .beginRun _ _ => some .running
  | .fail _ _ => some .error
  | .finishReady _ _ _ _ => some .ready
  | .hook _ _ => none
  | .reap _ => none

/-! ### Rate limiter (lines 105-113) -/

/-- The `rate_limit` dict (line 84): client ip -> recorded timestamps;
`rate_limit.get(ip, [])` makes an absent entry the empty list, so the dict
is modelled as a total function defaulting to `[]`. -/
abbrev RLMap := String → List Int

/-- Function `check_rate_limit(ip)` (lines 105-113).  Returns the admission decision
and the (possibly updated) mapping.  Note the source writes
`rate_limit[ip] = times` only on the accept path; on rejection it returns
before the write, leaving the mapping untouched (the lazily pruned list is
not written back either). -/
def check_rate_limit (now : Int) (ip : String) (rl : RLMap) : Bool × RLMap :=
  let times := rl ip
  let times2 := times.filter (fun t => now - t < RATE_LIMIT_WINDOW)
  if RATE_LIMIT_COUNT ≤ times2.length then (false, rl)
  else (true, fun k => if k = ip then times2 ++ [now] else rl k)

/-- Folds `check_rate_limit` over a sequence of request times for one
client, collecting the decisions. -/
def rlRun (ip : String) : RLMap → List Int → RLMap × List Bool
  | m, [] => (m, [])
  | m, t :: ts =>
    let r := check_rate_limit t ip m
    let rest := rlRun ip r.2 ts
    (rest.1, r.1 :: rest.2)

/-- Folds `check_rate_limit` over an arbitrary interleaved request sequence
`(time, ip)` starting from the empty mapping. -/
def rlProcess (reqs : List (Int × String)) : RLMap :=
  reqs.foldl (fun m r => (check_rate_limit r.1 r.2 m).2) (fun _ => [])

/-- Function `check_concurrent_limit(ip)` (lines 116-123): counts this client's
records with status queued/running against `RATE_LIMIT_CONCURRENT`. -/
def check_concurrent_limit (ip : String) (jobs : JobsMap) : Bool :=
  (jobs.countP (fun kv =>
    kv.2.ip == ip && (kv.2.status == .queued || kv.2.status == .running))) < RATE_LIMIT_CONCURRENT

/-! ### URL validation (lines 126-144) -/

/-- Function `is_valid_instagram_url(url)` (lines 126-144) on the parsed components.
(`urlparse` does not raise on ordinary string input, so the `except` arm
returning `False` is not reachable in this model.) -/
def is_valid_instagram_url (u : ParsedUrl) : Bool :=
  if !(u.scheme == "http" || u.scheme == "https") then false
  else
    let host := strLower u.netloc
    if !(host == "instagram.com" || strEndsWith host ".instagram.com") then false
    else
      let path := strLower u.path
      if (["/reel/", "/reels/", "/p/", "/tv/"].any (fun p => strStartsWith path p)) then true
      else if strContains path "/reel" || strContains path "/reels"
              || strContains path "/p/" || strContains path "/tv/" then true
      else false

/-! ### Download worker (lines 224-349) -/

def AUTH_REQUIRED_MSG : String :=
  "Instagram requires login for this content. Unable to download without authentication."

def GENERIC_FAILURE_MSG : String :=
  "Failed to download media. The URL may be private or invalid."

def FFMPEG_MISSING_MSG : String :=
  "ffmpeg not found or not executable. Please install ffmpeg."

def UNEXPECTED_ERROR_MSG : String :=
  "Unexpected error during download."

def OUTPUT_NOT_FOUND_MSG : String :=
  "Download finished but output file not found."

def SERVER_ERROR_MSG : String :=
  "Server error while processing the download."

/-- The keyword tuple at line 297. -/
def login_keywords : List String :=
  ["login", "403", "forbidden", "private", "authentication",
   "login_required", "not authorized", "please sign in"]

/-- Python exception classes relevant to the worker's `except` clauses.
`FileNotFoundError` is a subclass of `Exception`. -/
inductive ExcKind
  | FileNotFoundError
  | Exception
  deriving DecidableEq

/-- An exception raised by the engine call: its class and `str(e)`. -/
structure PyExc where
  cls : ExcKind
  msg : String
  deriving DecidableEq

/-- The Python subclass relation on the two modelled classes: everything is
a subclass of `Exception`. -/
def isSubclassOf : ExcKind → ExcKind → Bool
  | _, .Exception => true
  | .Exception, .FileNotFoundError => false
  | .FileNotFoundError, .FileNotFoundError => true

/-- Whether an `except <clause>` arm catches exception `e` (Python: the
raised class is the clause class or a subclass of it). -/
def excCatches (clause : ExcKind) (e : PyExc) : Bool := isSubclassOf e.cls clause

/-- Classification of lines 296-301: keyword scan of the error text, choosing between the
authentication message and the generic failure message. -/
def classify_engine_error (msg : String) : String :=
  if login_keywords.any (fun k => strContains (strLower msg) k) then AUTH_REQUIRED_MSG
  else GENERIC_FAILURE_MSG

/-- The `except` chain around `ydl.extract_info` (lines 291-319).  Python
tries the clauses in source order, taking the first whose class matches:
`except Exception` (line 291), `except FileNotFoundError` (line 307),
`except Exception` (line 314).  An exception caught by none of them would
propagate to the outer handler at line 345. -/
def handle_engine_exception (e : PyExc) : String :=
  if excCatches .Exception e then classify_engine_error e.msg
  else if excCatches .FileNotFoundError e then FFMPEG_MISSING_MSG
  else if excCatches .Exception e then UNEXPECTED_ERROR_MSG
  else SERVER_ERROR_MSG

/-- Selection at lines 270-280: requested format selects the expected output extension. -/
def final_ext (fmt : String) : String := if fmt == "audio" then "mp3" else "mp4"

/-- The search loop at lines 321-328: walk the working directory (given as
the visited `(root, files)` pairs in `os.walk` order) and take the first
file whose lowercased name ends with the expected extension, joined with
its root. -/
def findProduced (ext : String) : List (String × List String) → Option String
  | [] => none
  | (root, files) :: rest =>
    match files.find? (fun f => strEndsWith (strLower f) ext) with
    | some f => some (pathJoin root f)
    | none => findProduced ext rest

/-- What the engine invocation (`ydl.extract_info`, line 290) and its
surroundings did, as an oracle:

* `raises e`       - the call raised `e` inside the inner `try`;
* `raisesOutside`  - some statement outside the inner `try` raised, reaching
                     the outer handler at line 345;
* `ok walk sz`     - the call returned; `walk` is what `os.walk(temp_dir)`
                     then visits, and `sz` is `os.path.getsize(produced)`
                     (`none` when `getsize` raised, line 342-343). -/
inductive EngineOutcome
  | raises (e : PyExc)
  | raisesOutside
  | ok (walk : List (String × List String)) (sz : Option Int)

/-- Function `run_download_job(job_id, url, fmt, proxy)` (lines 224-349), as the
sequence of job-table mutations it performs, in program order.  `url`,
`proxy` and the option construction (lines 232-288) only configure the
engine call, whose effect is the `EngineOutcome` oracle. -/
def run_download_job (job_id url fmt : String) (proxy : Option String) (o : EngineOutcome) : List TableOp :=
  let temp_dir := pathJoin BASE_DOWNLOAD_DIR job_id
  TableOp.beginRun job_id temp_dir ::
  match o with
  | .raises e => [.fail job_id (handle_engine_exception e)]
  | .raisesOutside => [.fail job_id SERVER_ERROR_MSG]
  | .ok walk sz =>
    match findProduced (final_ext fmt) walk with
    | none => [.fail job_id OUTPUT_NOT_FOUND_MSG]
    | some produced => [.finishReady job_id produced (basename produced) sz]

/-! ### The `/start` handler (lines 357-395) -/

/-- The request body (JSON fields) plus the `X-API-Key` header. -/
structure StartReq where
  url : Option ParsedUrl
  format : Option String
  proxy : Option String
  api_key : Option String
  x_api_key : Option String

/-- The handler's possible responses: 401, 400, 429, or 200 `{job_id}`. -/
inductive StartResp
  | invalidKey
  | invalidUrl
  | rateLimited
  | accepted (job_id : String)
  deriving DecidableEq

/-- Gate of lines 364-367: `key = request.headers.get('X-API-Key') or
data.get('api_key'); if not key or key != API_KEY: 401`. -/
def api_key_ok (apiKey : Option String) (req : StartReq) : Bool :=
  match apiKey with
  | none => true
  | some k =>
    match req.x_api_key <|> req.api_key with
    | none => false
    | some kk => kk == k

/-- Handler `start()` (lines 357-395).  `now` is `time.time()`, `job_id` the fresh
`uuid4().hex`, `ip` the result of `get_client_ip()`.  Note the handler
checks only `check_rate_limit`; it never calls `check_concurrent_limit`. -/
def start (apiKey : Option String) (now : Int) (job_id ip : String) (req : StartReq)
    (jobs : JobsMap) (rl : RLMap) : StartResp × JobsMap × RLMap :=
  let fmt := req.format.getD "mp4"
  if !(api_key_ok apiKey req) then (.invalidKey, jobs, rl)
  else
    match req.url with
    | none => (.invalidUrl, jobs, rl)
    | some u =>
      if !(is_valid_instagram_url u) then (.invalidUrl, jobs, rl)
      else
        let r := check_rate_limit now ip rl
        if !r.1 then (.rateLimited, jobs, r.2)
        else
          (.accepted job_id,
           applyOp jobs (.create job_id now fmt u ip req.proxy.isSome),
           r.2)

/-! ### The `/events/<job_id>` stream (lines 398-422) -/

/-- The projection serialized at lines 408-414 for a present job. -/
structure EvPayload where
  status : JobStatus
  progress : Progress
  error : Option String
  filename : Option String
  size : Option Int
  deriving DecidableEq

/-- One serialized snapshot.  `unknown` is the `{'status': 'unknown'}` dict
built when the job is absent (line 406).  `json.dumps` is injective on
these dict shapes (fixed key order, five keys for a present job versus one
for `unknown`), so comparing serialized strings is comparing these
values. -/
inductive SsePayload
  | unknown
  | snap (p : EvPayload)
  deriving DecidableEq

/-- Projection of lines 403-414: build the payload from the current table entry. -/
def payloadOf (o : Option Job) : SsePayload :=
  match o with
  | none => .unknown
  | some j =>
    .snap { status := j.status, progress := j.progress,
            error := if j.status = .error then j.error else none,
            filename := j.filename, size := j.size }

/-- Check of line 419: `payload.get('status') in ('ready', 'error', 'unknown')`. -/
def isTerminalPayload : SsePayload → Bool
  | .unknown => true
  | .snap p => p.status == .ready || p.status == .error

/-- The generator `gen()` (lines 400-421) run against a (finite prefix of
the) sequence of table states it observes at its 500ms polls, each given as
the `jobs.get(job_id)` result.  Returns the emitted snapshots, and whether
the loop hit its `break` (terminal status observed) rather than running out
of observations. -/
def events_gen (last : Option SsePayload) : List (Option Job) → List SsePayload × Bool
  | [] => ([], false)
  | o :: rest =>
    let p := payloadOf o
    let emitted := if some p ≠ last then [p] else []
    let last2 := if some p ≠ last then some p else last
    if isTerminalPayload p then (emitted, true)
    else
      let r := events_gen last2 rest
      (emitted ++ r.1, r.2)

/-! ### The `/download/<job_id>` handler (lines 424-438) -/

inductive DownloadResp
  | notFound
  | notReady
  | file (filepath filename : String)
  deriving DecidableEq

/-- Handler `download(job_id)` (lines 424-438): 404 when absent; 400 when
`status != 'ready' or not filepath`; otherwise serve the file with
`filename = job.get('filename') or basename(filepath)`. -/
def download (m : JobsMap) (job_id : String) : DownloadResp :=
  match lookupJob m job_id with
  | none => .notFound
  | some job =>
    match job.filepath with
    | none => .notReady
    | some fp =>
      if job.status ≠ .ready then .notReady
      else .file fp (job.filename.getD (basename fp))

/-! ### The janitor (lines 175-198) -/

/-- One entry of `os.listdir(BASE_DOWNLOAD_DIR)` together with its
`os.path.getmtime` result. -/
structure FsEntry where
  name : String
  mtime : Int
  deriving DecidableEq

def entryPath (e : FsEntry) : String := pathJoin BASE_DOWNLOAD_DIR e.name

/-- Predicate of line 192: `j.get('temp_dir') == path or j.get('filepath', '').startswith(path)`. -/
def jobMatchesPath (j : Job) (path : String) : Bool :=
  (j.temp_dir == some path) || strStartsWith (j.filepath.getD "") path

/-- One sweep of `background_cleaner` (lines 178-195): for each listed
entry older than the 30-minute cutoff, delete it and pop every job record
matching its path; younger entries are left in place.  Deletion is
best-effort in the source (`ignore_errors=True`, swallowed exceptions);
the sweep is modelled with deletions succeeding. -/
def background_cleaner_sweep (now : Int) : List FsEntry → JobsMap → List FsEntry × JobsMap
  | [], jobs => ([], jobs)
  | e :: es, jobs =>
    if e.mtime < now - 30 * 60 then
      background_cleaner_sweep now es
        (jobs.filter (fun kv => !(jobMatchesPath kv.2 (entryPath e))))
    else
      let r := background_cleaner_sweep now es jobs
      (e :: r.1, r.2)

/-! ### Derived definitions used by the theorems -/

/-- Order of the lifecycle: queued before running before the terminal
states. -/
def statusRank : JobStatus → Nat
  | .queued => 0
  | .running => 1
  | .ready => 2
  | .error => 2

/-- The status values written to one job's record, in program order: the
`/start` handler inserts the record (lines 380-390) and then spawns the
worker thread for that same job (lines 392-393), whose mutations are
`run_download_job`.  These constructors cover every site in the source that
writes a `status` field. -/
def jobStatusWrites (job_id : String) (now : Int) (fmt0 : String) (u : ParsedUrl)
    (ip : String) (proxy0 : Bool) (url fmt : String) (proxy : Option String)
    (o : EngineOutcome) : List JobStatus :=
  (TableOp.create job_id now fmt0 u ip proxy0 :: run_download_job job_id url fmt proxy o).filterMap
    statusWrite

/-- A table state in which every job in status `ready` carries a result
file path. -/
def ReadyHasPath (m : JobsMap) : Prop :=
  ∀ kv ∈ m, kv.2.status = JobStatus.ready → kv.2.filepath.isSome = true

/-! ### Concrete fixtures for closed theorems and witnesses -/

def demoUrl : ParsedUrl := ⟨"https", "www.instagram.com", "/reel/abc123/"⟩

def demoIp : String := "9.9.9.9"

def demoJobs3 : JobsMap :=
  [("a1", newJob "a1" 0 "mp4" demoUrl demoIp false),
   ("a2", newJob "a2" 0 "mp4" demoUrl demoIp false),
   ("a3", newJob "a3" 0 "mp4" demoUrl demoIp false)]

def demoReq : StartReq :=
  { url := some demoUrl, format := none, proxy := none, api_key := none, x_api_key := none }

def emptyRL : RLMap := fun _ => []

/-- A rate-limit mapping whose every client already stores five in-window
timestamps. -/
def wRL5 : RLMap := fun _ => [0, 0, 0, 0, 0]

/-- An engine error mentioning a 403 response. -/
def wAuthExc : PyExc := ⟨.Exception, "HTTP Error 403 Forbidden"⟩

def wAuthJob : Job := newJob "jw" 0 "mp4" demoUrl demoIp false

def wAuthJobs : JobsMap := [("jw", wAuthJob)]

/-- A well-formed non-Instagram URL. -/
def wBadUrl : ParsedUrl := ⟨"https", "example.com", "/foo"⟩

def wBadReq : StartReq :=
  { url := some wBadUrl, format := none, proxy := none, api_key := none, x_api_key := none }

/-- A `FileNotFoundError` as raised when the transcoder binary is absent. -/
def fnfExc : PyExc := ⟨.FileNotFoundError, "No such file or directory: ffmpeg"⟩

/-- Janitor fixtures: an old entry `ab` and a young entry `abc` whose names
collide as string prefixes. -/
def cxOld : FsEntry := ⟨"ab", 0⟩

def cxYoung : FsEntry := ⟨"abc", 100000⟩

/-- The job owning the young directory `downloads/abc`. -/
def cxJob : Job :=
  { newJob "abc" 0 "mp4" demoUrl demoIp false with
    status := .ready, temp_dir := some "downloads/abc",
    filepath := some "downloads/abc/f.mp4", filename := some "f.mp4", size := some 7 }

/-! ### Helper lemmas: rate limiter -/

/-- One admission check keeps every stored timestamp list at or below the
ceiling: rejection leaves the mapping untouched, and acceptance stores a
pruned list that was strictly below the ceiling plus one new entry. -/
theorem check_rate_limit_length_bound (now : Int) (ip : String) (rl : RLMap)
    (h : ∀ k, (rl k).length ≤ RATE_LIMIT_COUNT) :
    ∀ k, (((check_rate_limit now ip rl).2) k).length ≤ RATE_LIMIT_COUNT := by
  intro k
  by_cases hc : RATE_LIMIT_COUNT ≤
      ((rl ip).filter (fun t => now - t < RATE_LIMIT_WINDOW)).length
  · simp only [check_rate_limit, if_pos hc]
    exact h k
  · simp only [check_rate_limit, if_neg hc]
    by_cases hk : k = ip
    · subst hk
      split
      · simp only [List.length_append, List.length_cons, List.length_nil]
        omega
      · next hne => exact absurd rfl hne
    · split
      · next heq => exact absurd heq hk
      · exact h k

/-- Running the limiter on a request sequence for one client, starting from
a state whose `ip` entry holds `(m ip)`, admits every request when all
times are mutually in-window and the total count stays at or below the
ceiling; the stored entry becomes the full list of times. -/
theorem rlRun_all_admitted (ip : String) :
    ∀ (ts : List Int) (m : RLMap),
      (∀ x ∈ m ip ++ ts, ∀ y ∈ ts, y - x < RATE_LIMIT_WINDOW) →
      (m ip).length + ts.length ≤ RATE_LIMIT_COUNT →
      (rlRun ip m ts).2 = List.replicate ts.length true
      ∧ (rlRun ip m ts).1 ip = m ip ++ ts
      ∧ ∀ k, k ≠ ip → (rlRun ip m ts).1 k = m k := by
  intro ts
  induction ts with
  | nil =>
    intro m _ _
    refine ⟨rfl, by simp [rlRun], fun k _ => rfl⟩
  | cons t ts ih =>
    intro m hw hb
    have hkeep : (m ip).filter (fun x => t - x < RATE_LIMIT_WINDOW) = m ip := by
      apply List.filter_eq_self.mpr
      intro x hx
      simp only [decide_eq_true_eq]
      exact hw x (List.mem_append_left _ hx) t (List.mem_cons_self t ts)
    have hlen : ¬ (RATE_LIMIT_COUNT ≤
        ((m ip).filter (fun x => t - x < RATE_LIMIT_WINDOW)).length) := by
      rw [hkeep]
      simp only [List.length_cons] at hb
      omega
    have hstep : check_rate_limit t ip m
        = (true, fun k => if k = ip
            then (m ip).filter (fun x => t - x < RATE_LIMIT_WINDOW) ++ [t] else m k) := by
      simp only [check_rate_limit, if_neg hlen]
    set m2 : RLMap :=
      fun k => if k = ip then (m ip).filter (fun x => t - x < RATE_LIMIT_WINDOW) ++ [t] else m k
      with hm2
    have hm2ip : m2 ip = m ip ++ [t] := by
      rw [hm2]
      simp [hkeep]
    have hw2 : ∀ x ∈ m2 ip ++ ts, ∀ y ∈ ts, y - x < RATE_LIMIT_WINDOW := by
      intro x hx y hy
      rw [hm2ip, List.append_assoc, List.singleton_append] at hx
      exact hw x hx y (List.mem_cons_of_mem t hy)
    have hb2 : (m2 ip).length + ts.length ≤ RATE_LIMIT_COUNT := by
      rw [hm2ip]
      simp only [List.length_append, List.length_cons] at hb ⊢
      simp only [List.length_cons, List.length_nil]
      omega
    obtain ⟨h1, h2, h3⟩ := ih m2 hw2 hb2
    have hr : rlRun ip m (t :: ts)
        = ((rlRun ip m2 ts).1, true :: (rlRun ip m2 ts).2) := by
      simp only [rlRun, hstep]
    refine ⟨?_, ?_, ?_⟩
    · rw [hr]
      simp only [h1, List.replicate, List.length_cons]
    · rw [hr]
      simp only [h2, hm2ip, List.append_assoc, List.singleton_append]
    · intro k hk
      rw [hr]
      simp only [h3 k hk, hm2]
      simp [if_neg hk]

/-- A create/beginRun/finishReady lifecycle for job `j5`. -/
def wOps : List TableOp :=
  [.create "j5" 0 "mp4" demoUrl demoIp false, .beginRun "j5" "downloads/j5",
   .finishReady "j5" "downloads/j5/v.mp4" "v.mp4" (some 3)]

/-- The record those operations produce. -/
def wJob5 : Job :=
  { newJob "j5" 0 "mp4" demoUrl demoIp false with
    status := .ready, progress := .started, temp_dir := some "downloads/j5",
    filepath := some "downloads/j5/v.mp4", filename := some "v.mp4", size := some 3 }

def wRunningJob : Job :=
  { newJob "j8" 0 "mp4" demoUrl demoIp false with status := .running, progress := .started }

/-- Two non-terminal observations of job `j8`. -/
def wObsPre : List (Option Job) :=
  [some (newJob "j8" 0 "mp4" demoUrl demoIp false), some wRunningJob]

/-- Jobs for the janitor witness: one matching the old entry by string
prefix, one matching nothing. -/
def wSweepJobs : JobsMap := [("abc", cxJob), ("zz", wJob5)]

/-! ### Claim theorems -/

/-- C10: a rejected rate-limit check returns the mapping itself - the
source returns before the write-back at line 112, so not even the pruned
list is stored - and, from the empty initial state, any sequence of checks
leaves every client's stored list at or below the ceiling in length. -/
theorem rate_limit_reject_leaves_state_unchanged :
    (∀ (now : Int) (ip : String) (rl : RLMap),
        (check_rate_limit now ip rl).1 = false → (check_rate_limit now ip rl).2 = rl)
    ∧ (∀ (reqs : List (Int × String)) (k : String),
        ((rlProcess reqs) k).length ≤ RATE_LIMIT_COUNT) := by
  constructor
  · intro now ip rl h
    by_cases hc : RATE_LIMIT_COUNT ≤
        ((rl ip).filter (fun t => now - t < RATE_LIMIT_WINDOW)).length
    · simp only [check_rate_limit, if_pos hc]
    · exfalso
      simp only [check_rate_limit, if_neg hc] at h
      exact Bool.true_eq_false.mp h
  · have main : ∀ (reqs : List (Int × String)) (m : RLMap),
        (∀ k, (m k).length ≤ RATE_LIMIT_COUNT) →
        ∀ k, ((reqs.foldl (fun m r => (check_rate_limit r.1 r.2 m).2) m) k).length
          ≤ RATE_LIMIT_COUNT := by
      intro reqs
      induction reqs with
      | nil => intro m hm; exact hm
      | cons r rs ih =>
        intro m hm
        exact ih _ (check_rate_limit_length_bound r.1 r.2 m hm)
    intro reqs k
    exact main reqs (fun _ => []) (fun _ => by simp) k

/-- Witness for C10: a full in-window list rejects the next check and the
mapping is returned unchanged. -/
theorem rate_limit_reject_leaves_state_unchanged_witness :
    (check_rate_limit 1 "a" wRL5).2 = wRL5 :=
  rate_limit_reject_leaves_state_unchanged.1 1 "a" wRL5 (by decide)

/-- C3: the admission check prunes the client's stored timestamps to
the trailing window, rejects exactly when at least `RATE_LIMIT_COUNT`
remain, and otherwise stores the pruned list plus the current time;
consequently a client admitted `RATE_LIMIT_COUNT` times within one window
is rejected on the next in-window request, and admitted again once all its
stored timestamps have aged out of the window. -/
theorem rate_limiter_window_admission :
    (∀ (now : Int) (ip : String) (rl : RLMap),
        ((check_rate_limit now ip rl).1 = true
          ↔ ((rl ip).filter (fun t => now - t < RATE_LIMIT_WINDOW)).length < RATE_LIMIT_COUNT)
        ∧ ((check_rate_limit now ip rl).1 = true →
            (check_rate_limit now ip rl).2 ip
              = (rl ip).filter (fun t => now - t < RATE_LIMIT_WINDOW) ++ [now]))
    ∧ (∀ (ip : String) (ts : List Int) (u v : Int),
        ts.length = RATE_LIMIT_COUNT →
        (∀ x ∈ ts, ∀ y ∈ ts ++ [u], y - x < RATE_LIMIT_WINDOW) →
        (∀ x ∈ ts, RATE_LIMIT_WINDOW ≤ v - x) →
        (rlRun ip emptyRL ts).2 = List.replicate RATE_LIMIT_COUNT true
        ∧ (check_rate_limit u ip (rlRun ip emptyRL ts).1).1 = false
        ∧ (check_rate_limit v ip (rlRun ip emptyRL ts).1).1 = true) := by
  constructor
  · intro now ip rl
    by_cases hc : RATE_LIMIT_COUNT ≤
        ((rl ip).filter (fun t => now - t < RATE_LIMIT_WINDOW)).length
    · refine ⟨?_, ?_⟩
      · simp only [check_rate_limit, if_pos hc]
        simp
        omega
      · intro h
        simp only [check_rate_limit, if_pos hc] at h
        simp at h
    · refine ⟨?_, ?_⟩
      · simp only [check_rate_limit, if_neg hc]
        simp
        omega
      · intro _
        simp only [check_rate_limit, if_neg hc]
        simp
  · intro ip ts u v hlen hw hv
    have hw0 : ∀ x ∈ emptyRL ip ++ ts, ∀ y ∈ ts, y - x < RATE_LIMIT_WINDOW := by
      intro x hx y hy
      simp only [emptyRL, List.nil_append] at hx
      exact hw x hx y (List.mem_append_left _ hy)
    have hb0 : (emptyRL ip).length + ts.length ≤ RATE_LIMIT_COUNT := by
      simp [emptyRL, hlen]
    obtain ⟨h1, h2, _⟩ := rlRun_all_admitted ip ts emptyRL hw0 hb0
    have hts : (rlRun ip emptyRL ts).1 ip = ts := by
      rw [h2]; simp [emptyRL]
    refine ⟨by rw [h1, hlen], ?_, ?_⟩
    · have hkeepu : ts.filter (fun x => u - x < RATE_LIMIT_WINDOW) = ts := by
        apply List.filter_eq_self.mpr
        intro x hx
        simp only [decide_eq_true_eq]
        exact hw x hx u (List.mem_append_right _ (List.mem_singleton_self u))
      have hcond : RATE_LIMIT_COUNT ≤
          (((rlRun ip emptyRL ts).1 ip).filter (fun x => u - x < RATE_LIMIT_WINDOW)).length := by
        rw [hts, hkeepu, hlen]
      simp only [check_rate_limit, if_pos hcond]
    · have hdrop : ts.filter (fun x => v - x < RATE_LIMIT_WINDOW) = [] := by
        apply List.filter_eq_nil_iff.mpr
        intro x hx
        simp only [decide_eq_true_eq]
        have := hv x hx
        omega
      have hcond : ¬ (RATE_LIMIT_COUNT ≤
          (((rlRun ip emptyRL ts).1 ip).filter (fun x => v - x < RATE_LIMIT_WINDOW)).length) := by
        rw [hts, hdrop]
        simp [RATE_LIMIT_COUNT]
      simp only [check_rate_limit, if_neg hcond]

/-- Witness for C3: five admissions at times 0..4 from the empty state, a
sixth in-window request at time 5 rejected, a request at time 3604 (window
elapsed) admitted. -/
theorem rate_limiter_window_admission_witness :
    (rlRun "w3" emptyRL [0, 1, 2, 3, 4]).2 = List.replicate RATE_LIMIT_COUNT true
    ∧ (check_rate_limit 5 "w3" (rlRun "w3" emptyRL [0, 1, 2, 3, 4]).1).1 = false
    ∧ (check_rate_limit 3604 "w3" (rlRun "w3" emptyRL [0, 1, 2, 3, 4]).1).1 = true :=
  rate_limiter_window_admission.2 "w3" [0, 1, 2, 3, 4] 5 3604 (by decide) (by decide)
    (by decide)

/-- C1 (code bug evidence): with the default configuration, a client
that already has `RATE_LIMIT_CONCURRENT = 3` queued jobs fails
`check_concurrent_limit`, yet a further `POST /start` submission from that
client is accepted and creates a fourth job record: the `start` handler
never invokes `check_concurrent_limit`, so the concurrency cap is not
enforced. -/
theorem start_ignores_concurrency_cap :
    check_concurrent_limit demoIp demoJobs3 = false
    ∧ (start none 100 "a4" demoIp demoReq demoJobs3 emptyRL).1 = StartResp.accepted "a4"
    ∧ lookupJob (start none 100 "a4" demoIp demoReq demoJobs3 emptyRL).2.1 "a4"
        = some (newJob "a4" 100 "mp4" demoUrl demoIp false)
    ∧ ((start none 100 "a4" demoIp demoReq demoJobs3 emptyRL).2.1).length = 4 := by
  refine ⟨by decide, by decide, by decide, by decide⟩

/-- C2 (code bug evidence): an engine invocation failing with
`FileNotFoundError` (the transcoder binary missing) is caught by the
`except Exception` clause at line 291 - which precedes the
`except FileNotFoundError` clause at line 307 and matches every exception -
so the job ends in status `error` with the generic failure message, not the
distinct transcoder-not-found message. -/
theorem missing_ffmpeg_gets_generic_message :
    handle_engine_exception fnfExc = GENERIC_FAILURE_MSG
    ∧ GENERIC_FAILURE_MSG ≠ FFMPEG_MISSING_MSG
    ∧ run_download_job "job1" "u" "mp4" none (.raises fnfExc)
        = [.beginRun "job1" (pathJoin BASE_DOWNLOAD_DIR "job1"),
           .fail "job1" GENERIC_FAILURE_MSG]
    ∧ (lookupJob
        (applyOps [("job1", newJob "job1" 0 "mp4" demoUrl demoIp false)]
          (run_download_job "job1" "u" "mp4" none (.raises fnfExc))) "job1").map Job.status
        = some JobStatus.error
    ∧ (lookupJob
        (applyOps [("job1", newJob "job1" 0 "mp4" demoUrl demoIp false)]
          (run_download_job "job1" "u" "mp4" none (.raises fnfExc))) "job1").map Job.error
        = some (some GENERIC_FAILURE_MSG) := by
  refine ⟨by decide, by decide, by decide, by decide, by decide⟩

/-- C4: the status values written to a job's record form the walk
queued, running, then exactly one terminal state: the sequence is
non-decreasing in the lifecycle order, never leaves a terminal state, and
never contains both `ready` and `error`; the progress hook writes no status
at all. -/
theorem job_status_writes_monotonic (job_id : String) (now : Int) (fmt0 : String)
    (u : ParsedUrl) (ip : String) (proxy0 : Bool) (url fmt : String)
    (proxy : Option String) (o : EngineOutcome) :
    (jobStatusWrites job_id now fmt0 u ip proxy0 url fmt proxy o
        = [JobStatus.queued, JobStatus.running, JobStatus.ready]
      ∨ jobStatusWrites job_id now fmt0 u ip proxy0 url fmt proxy o
        = [JobStatus.queued, JobStatus.running, JobStatus.error])
    ∧ List.Chain' (fun a b => statusRank a ≤ statusRank b)
        (jobStatusWrites job_id now fmt0 u ip proxy0 url fmt proxy o)
    ∧ ¬(JobStatus.ready ∈ jobStatusWrites job_id now fmt0 u ip proxy0 url fmt proxy o
        ∧ JobStatus.error ∈ jobStatusWrites job_id now fmt0 u ip proxy0 url fmt proxy o) := by
  have hw : jobStatusWrites job_id now fmt0 u ip proxy0 url fmt proxy o
        = [JobStatus.queued, JobStatus.running, JobStatus.ready]
      ∨ jobStatusWrites job_id now fmt0 u ip proxy0 url fmt proxy o
        = [JobStatus.queued, JobStatus.running, JobStatus.error] := by
    cases o with
    | raises e =>
      right; simp [jobStatusWrites, run_download_job, statusWrite]
    | raisesOutside =>
      right; simp [jobStatusWrites, run_download_job, statusWrite]
    | ok walk sz =>
      cases h : findProduced (final_ext fmt) walk with
      | none =>
        right; simp [jobStatusWrites, run_download_job, statusWrite, h]
      | some produced =>
        left; simp [jobStatusWrites, run_download_job, statusWrite, h]
  refine ⟨hw, ?_, ?_⟩
  · rcases hw with h | h <;> rw [h] <;> simp [List.chain'_cons, statusRank]
  · rcases hw with h | h <;> rw [h] <;> simp

/-- Witness for C4: a concrete lifecycle whose engine call fails outside
the inner handler chain. -/
theorem job_status_writes_monotonic_witness :
    (jobStatusWrites "j4" 0 "mp4" demoUrl demoIp false "u" "mp4" none EngineOutcome.raisesOutside
        = [JobStatus.queued, JobStatus.running, JobStatus.ready]
      ∨ jobStatusWrites "j4" 0 "mp4" demoUrl demoIp false "u" "mp4" none EngineOutcome.raisesOutside
        = [JobStatus.queued, JobStatus.running, JobStatus.error])
    ∧ List.Chain' (fun a b => statusRank a ≤ statusRank b)
        (jobStatusWrites "j4" 0 "mp4" demoUrl demoIp false "u" "mp4" none EngineOutcome.raisesOutside)
    ∧ ¬(JobStatus.ready ∈
          jobStatusWrites "j4" 0 "mp4" demoUrl demoIp false "u" "mp4" none EngineOutcome.raisesOutside
        ∧ JobStatus.error ∈
          jobStatusWrites "j4" 0 "mp4" demoUrl demoIp false "u" "mp4" none EngineOutcome.raisesOutside) :=
  job_status_writes_monotonic "j4" 0 "mp4" demoUrl demoIp false "u" "mp4" none
    EngineOutcome.raisesOutside

/-- C9 (counterexample): a sweep at time 100000 over the entries `ab`
(old) and `abc` (young) leaves the young entry in place but removes the job
record whose working directory is the young entry `downloads/abc` - because
the record's file path `downloads/abc/f.mp4` string-prefix-matches the
deleted old path `downloads/ab` (line 192).  This refutes the claim's
assertion that an entry younger than the window has its job record left
untouched by the sweep. -/
theorem janitor_removes_young_jobs_record :
    (background_cleaner_sweep 100000 [cxOld, cxYoung] [("abc", cxJob)]).1 = [cxYoung]
    ∧ (background_cleaner_sweep 100000 [cxOld, cxYoung] [("abc", cxJob)]).2 = []
    ∧ ¬(cxYoung.mtime < 100000 - 30 * 60)
    ∧ cxJob.temp_dir = some (entryPath cxYoung) := by
  refine ⟨by decide, by decide, by decide, by decide⟩

/-! ### Helper lemmas: job-table lookups and string containment -/

/-- Looking up the modified key after a field mutation sees the mutation. -/
theorem lookupJob_modifyJob (m : JobsMap) (k : String) (f : Job → Job) :
    lookupJob (modifyJob m k f) k = (lookupJob m k).map f := by
  induction m with
  | nil => rfl
  | cons kv m ih =>
    simp only [lookupJob, modifyJob] at ih ⊢
    by_cases h : (kv.1 == k) = true
    · rw [List.map_cons, if_pos h, List.find?_cons, List.find?_cons,
        show ((kv.1, f kv.2).1 == k) = true from h]
      rfl
    · have hf : (kv.1 == k) = false := by simpa using h
      rw [List.map_cons, if_neg h, List.find?_cons, List.find?_cons, hf]
      exact ih

/-- Substring monotonicity: if `q` is a prefix of `p` and `s` starts with
`p`, then `s` contains `q`. -/
theorem strContains_of_strStartsWith {s p q : String}
    (hq : q.toList <+: p.toList) (h : strStartsWith s p = true) :
    strContains s q = true := by
  have hp : p.toList <+: s.toList := of_decide_eq_true h
  exact decide_eq_true (hq.trans hp).isInfix

/-- Substring monotonicity: if `q` is a prefix of `p` and `s` contains `p`,
then `s` contains `q`. -/
theorem strContains_of_strContains {s p q : String}
    (hq : q.toList <+: p.toList) (h : strContains s p = true) :
    strContains s q = true := by
  have hp : p.toList <:+: s.toList := of_decide_eq_true h
  exact decide_eq_true (hq.isInfix.trans hp)

/-- C7: when the engine invocation raises an error whose lowercased
text contains one of the authentication keywords of line 297 (for example
an error containing `403 Forbidden`), the worker writes status `error`
with the authentication-required message, not the generic failure
message. -/
theorem auth_keyword_error_ends_with_auth_message
    (job_id url fmt : String) (proxy : Option String) (e : PyExc)
    (jobs : JobsMap) (j : Job)
    (hkw : login_keywords.any (fun k => strContains (strLower e.msg) k) = true)
    (hj : lookupJob jobs job_id = some j) :
    run_download_job job_id url fmt proxy (.raises e)
      = [.beginRun job_id (pathJoin BASE_DOWNLOAD_DIR job_id),
         .fail job_id AUTH_REQUIRED_MSG]
    ∧ (lookupJob (applyOps jobs (run_download_job job_id url fmt proxy (.raises e))) job_id).map
        Job.status = some JobStatus.error
    ∧ (lookupJob (applyOps jobs (run_download_job job_id url fmt proxy (.raises e))) job_id).map
        Job.error = some (some AUTH_REQUIRED_MSG) := by
  have hcatch : excCatches .Exception e = true := by
    cases e with
    | mk cls msg => cases cls <;> rfl
  have hmsg : handle_engine_exception e = AUTH_REQUIRED_MSG := by
    simp [handle_engine_exception, hcatch, classify_engine_error, hkw]
  have hops : run_download_job job_id url fmt proxy (.raises e)
      = [.beginRun job_id (pathJoin BASE_DOWNLOAD_DIR job_id),
         .fail job_id AUTH_REQUIRED_MSG] := by
    simp [run_download_job, hmsg]
  have happ : lookupJob (applyOps jobs (run_download_job job_id url fmt proxy (.raises e))) job_id
      = some { j with
          status := .error, progress := .started,
          temp_dir := some (pathJoin BASE_DOWNLOAD_DIR job_id),
          error := some AUTH_REQUIRED_MSG } := by
    rw [hops]
    simp only [applyOps, List.foldl, applyOp]
    rw [lookupJob_modifyJob, lookupJob_modifyJob, hj]
    rfl
  refine ⟨hops, ?_, ?_⟩ <;> rw [happ] <;> rfl

/-- Witness for C7: an error text containing `403` at a concrete job. -/
theorem auth_keyword_error_ends_with_auth_message_witness :
    run_download_job "jw" "u" "mp4" none (.raises wAuthExc)
      = [.beginRun "jw" (pathJoin BASE_DOWNLOAD_DIR "jw"), .fail "jw" AUTH_REQUIRED_MSG]
    ∧ (lookupJob (applyOps wAuthJobs (run_download_job "jw" "u" "mp4" none (.raises wAuthExc))) "jw").map
        Job.status = some JobStatus.error
    ∧ (lookupJob (applyOps wAuthJobs (run_download_job "jw" "u" "mp4" none (.raises wAuthExc))) "jw").map
        Job.error = some (some AUTH_REQUIRED_MSG) :=
  auth_keyword_error_ends_with_auth_message "jw" "u" "mp4" none wAuthExc wAuthJobs wAuthJob
    (by decide) (by decide)

/-- C6: a URL whose host is neither `instagram.com` nor one of its
subdomains, or whose path contains none of the post/reel/tv markers, is
rejected by `/start` with the 400 invalid-URL response and neither the job
table nor the rate-limit mapping is changed. -/
theorem non_instagram_url_rejected
    (apiKey : Option String) (now : Int) (job_id ip : String) (req : StartReq)
    (jobs : JobsMap) (rl : RLMap) (u : ParsedUrl)
    (hapi : api_key_ok apiKey req = true)
    (hurl : req.url = some u)
    (hbad : (strLower u.netloc ≠ "instagram.com"
              ∧ strEndsWith (strLower u.netloc) ".instagram.com" = false)
        ∨ (strContains (strLower u.path) "/reel" = false
            ∧ strContains (strLower u.path) "/p/" = false
            ∧ strContains (strLower u.path) "/tv/" = false)) :
    start apiKey now job_id ip req jobs rl = (StartResp.invalidUrl, jobs, rl) := by
  have hvalid : is_valid_instagram_url u = false := by
    by_cases hs : (u.scheme == "http" || u.scheme == "https") = true
    · rcases hbad with ⟨h1, h2⟩ | ⟨h1, h2, h3⟩
      · have hhost : (strLower u.netloc == "instagram.com"
            || strEndsWith (strLower u.netloc) ".instagram.com") = false := by
          rw [Bool.or_eq_false_iff]
          exact ⟨beq_eq_false_iff_ne.mpr h1, h2⟩
        simp [is_valid_instagram_url, hs, hhost]
      · have s1 : strStartsWith (strLower u.path) "/reel/" = false := by
          by_contra hx
          exact absurd (@strContains_of_strStartsWith (strLower u.path) "/reel/" "/reel"
            (by decide) (by simpa using hx)) (by simp [h1])
        have s2 : strStartsWith (strLower u.path) "/reels/" = false := by
          by_contra hx
          exact absurd (@strContains_of_strStartsWith (strLower u.path) "/reels/" "/reel"
            (by decide) (by simpa using hx)) (by simp [h1])
        have s3 : strStartsWith (strLower u.path) "/p/" = false := by
          by_contra hx
          exact absurd (@strContains_of_strStartsWith (strLower u.path) "/p/" "/p/"
            (by decide) (by simpa using hx)) (by simp [h2])
        have s4 : strStartsWith (strLower u.path) "/tv/" = false := by
          by_contra hx
          exact absurd (@strContains_of_strStartsWith (strLower u.path) "/tv/" "/tv/"
            (by decide) (by simpa using hx)) (by simp [h3])
        have c5 : strContains (strLower u.path) "/reels" = false := by
          by_contra hx
          exact absurd (@strContains_of_strContains (strLower u.path) "/reels" "/reel"
            (by decide) (by simpa using hx)) (by simp [h1])
        simp [is_valid_instagram_url, hs, s1, s2, s3, s4, h1, c5, h2, h3]
    · have hs2 : (u.scheme == "http" || u.scheme == "https") = false := by
        simpa using hs
      simp [is_valid_instagram_url, hs2]
  simp [start, hapi, hurl, hvalid]

/-- Witness for C6: `https://example.com/foo` is rejected and creates
nothing. -/
theorem non_instagram_url_rejected_witness :
    start none 0 "w6" "1.1.1.1" wBadReq [] emptyRL = (StartResp.invalidUrl, [], emptyRL) :=
  non_instagram_url_rejected none 0 "w6" "1.1.1.1" wBadReq [] emptyRL wBadUrl (by decide) rfl
    (Or.inl (by decide))

/-! ### Helper lemmas: the ready-implies-filepath invariant -/

/-- A field mutation preserves the ready-implies-filepath invariant when
the mutating function does. -/
theorem ReadyHasPath_modifyJob (m : JobsMap) (k : String) (f : Job → Job)
    (h : ReadyHasPath m)
    (hf : ∀ j : Job, (j.status = JobStatus.ready → j.filepath.isSome = true) →
      (f j).status = JobStatus.ready → (f j).filepath.isSome = true) :
    ReadyHasPath (modifyJob m k f) := by
  intro kv hkv hst
  simp only [modifyJob, List.mem_map] at hkv
  obtain ⟨kv0, hkv0, heq⟩ := hkv
  by_cases hb : (kv0.1 == k) = true
  · rw [if_pos hb] at heq
    subst heq
    exact hf kv0.2 (h kv0 hkv0) hst
  · rw [if_neg hb] at heq
    subst heq
    exact h kv0 hkv0 hst

/-- Every job-table operation preserves the ready-implies-filepath
invariant: the only operation that writes status `ready` (`finishReady`,
one lock block, lines 336-343) writes the file path in the same block. -/
theorem applyOp_preserves_ReadyHasPath (m : JobsMap) (op : TableOp)
    (h : ReadyHasPath m) : ReadyHasPath (applyOp m op) := by
  cases op with
  | create job_id now fmt u ip proxy =>
    intro kv hkv hst
    simp only [applyOp, setJob, List.mem_cons] at hkv
    rcases hkv with rfl | hkv
    · simp [newJob] at hst
    · exact h kv (List.mem_of_mem_filter hkv) hst
  | beginRun job_id td =>
    exact ReadyHasPath_modifyJob m job_id
      (fun j => { j with status := .running, progress := .started, temp_dir := some td })
      h (fun j _ hr => by simp at hr)
  | hook job_id p =>
    exact ReadyHasPath_modifyJob m job_id (fun j => { j with progress := p })
      h (fun j hj hr => hj hr)
  | fail job_id msg =>
    exact ReadyHasPath_modifyJob m job_id
      (fun j => { j with status := .error, error := some msg })
      h (fun j _ hr => by simp at hr)
  | finishReady job_id fp fn sz =>
    exact ReadyHasPath_modifyJob m job_id
      (fun j => { j with status := .ready, filepath := some fp, filename := some fn, size := sz })
      h (fun j _ _ => by simp)
  | reap job_id =>
    intro kv hkv hst
    exact h kv (List.mem_of_mem_filter hkv) hst

/-- C5: in every table state reachable by any interleaving of the
program's lock-guarded operations, a job in status `ready` carries a result
file path - the path is written in the same lock acquisition as the
transition to `ready` - and consequently the `/download` reader never
answers its not-ready (400) response for a job it sees in status
`ready`. -/
theorem ready_status_implies_result_path (ops : List TableOp) :
    ReadyHasPath (applyOps [] ops)
    ∧ ∀ (job_id : String) (j : Job),
        lookupJob (applyOps [] ops) job_id = some j →
        j.status = JobStatus.ready →
        download (applyOps [] ops) job_id ≠ DownloadResp.notReady := by
  have hinv : ∀ (l : List TableOp) (m : JobsMap), ReadyHasPath m → ReadyHasPath (applyOps m l) := by
    intro l
    induction l with
    | nil => intro m hm; exact hm
    | cons op l ih =>
      intro m hm
      exact ih _ (applyOp_preserves_ReadyHasPath m op hm)
  have hR : ReadyHasPath (applyOps [] ops) := hinv ops [] (by intro kv hkv; simp at hkv)
  refine ⟨hR, ?_⟩
  intro job_id j hj hst
  have hmem : ∃ kv ∈ applyOps [] ops, kv.2 = j := by
    unfold lookupJob at hj
    cases hfind : List.find? (fun kv => kv.1 == job_id) (applyOps [] ops) with
    | none => rw [hfind] at hj; simp at hj
    | some kv =>
      rw [hfind] at hj
      simp at hj
      exact ⟨kv, List.mem_of_find?_eq_some hfind, hj⟩
  obtain ⟨kv, hkvmem, hkvj⟩ := hmem
  have hps : j.filepath.isSome = true := by
    have := hR kv hkvmem
    rw [hkvj] at this
    exact this hst
  obtain ⟨fp, hfp⟩ := Option.isSome_iff_exists.mp hps
  simp [download, hj, hfp, hst]

/-- Witness for C5: after a create/run/finish lifecycle the `/download`
reader serves the ready job. -/
theorem ready_status_implies_result_path_witness :
    download (applyOps [] wOps) "j5" ≠ DownloadResp.notReady :=
  (ready_status_implies_result_path wOps).2 "j5" wJob5 (by decide) (by decide)

/-! ### Helper lemmas: the `/events` generator -/

/-- Step equation: new payload, terminal - emit it and close. -/
theorem events_gen_cons_emit_term (o : Option Job) (rest : List (Option Job))
    (last : Option SsePayload) (hp : some (payloadOf o) ≠ last)
    (ht : isTerminalPayload (payloadOf o) = true) :
    events_gen last (o :: rest) = ([payloadOf o], true) := by
  simp [events_gen, hp, ht]

/-- Step equation: new payload, non-terminal - emit it and continue with it
as the new `last`. -/
theorem events_gen_cons_emit_go (o : Option Job) (rest : List (Option Job))
    (last : Option SsePayload) (hp : some (payloadOf o) ≠ last)
    (ht : isTerminalPayload (payloadOf o) = false) :
    events_gen last (o :: rest)
      = (payloadOf o :: (events_gen (some (payloadOf o)) rest).1,
         (events_gen (some (payloadOf o)) rest).2) := by
  simp [events_gen, hp, ht]

/-- Step equation: repeated payload, terminal - close without emitting. -/
theorem events_gen_cons_skip_term (o : Option Job) (rest : List (Option Job))
    (last : Option SsePayload) (hp : ¬ some (payloadOf o) ≠ last)
    (ht : isTerminalPayload (payloadOf o) = true) :
    events_gen last (o :: rest) = ([], true) := by
  simp [events_gen, hp, ht]

/-- Step equation: repeated payload, non-terminal - continue unchanged. -/
theorem events_gen_cons_skip_go (o : Option Job) (rest : List (Option Job))
    (last : Option SsePayload) (hp : ¬ some (payloadOf o) ≠ last)
    (ht : isTerminalPayload (payloadOf o) = false) :
    events_gen last (o :: rest) = events_gen last rest := by
  simp [events_gen, hp, ht]

/-- De-duplication: the emitted snapshots are pairwise distinct in
sequence, and the first differs from the inherited `last`. -/
theorem events_gen_chain (obs : List (Option Job)) :
    ∀ last : Option SsePayload,
      List.Chain' (fun a b => a ≠ b) (events_gen last obs).1
      ∧ ∀ x, ((events_gen last obs).1).head? = some x → some x ≠ last := by
  induction obs with
  | nil =>
    intro last
    refine ⟨List.chain'_nil, ?_⟩
    intro x hx
    simp [events_gen] at hx
  | cons o rest ih =>
    intro last
    by_cases hp : some (payloadOf o) ≠ last
    · by_cases ht : isTerminalPayload (payloadOf o) = true
      · rw [events_gen_cons_emit_term o rest last hp ht]
        refine ⟨List.chain'_singleton _, ?_⟩
        intro x hx
        simp only [List.head?_cons, Option.some.injEq] at hx
        exact hx ▸ hp
      · have ht2 : isTerminalPayload (payloadOf o) = false := by simpa using ht
        rw [events_gen_cons_emit_go o rest last hp ht2]
        obtain ⟨hc, hh⟩ := ih (some (payloadOf o))
        refine ⟨?_, ?_⟩
        · rw [List.chain'_cons']
          refine ⟨?_, hc⟩
          intro b hb
          intro he
          exact hh b hb (by rw [he])
        · intro x hx
          simp only [List.head?_cons, Option.some.injEq] at hx
          exact hx ▸ hp
    · by_cases ht : isTerminalPayload (payloadOf o) = true
      · rw [events_gen_cons_skip_term o rest last hp ht]
        refine ⟨List.chain'_nil, ?_⟩
        intro x hx
        simp at hx
      · have ht2 : isTerminalPayload (payloadOf o) = false := by simpa using ht
        rw [events_gen_cons_skip_go o rest last hp ht2]
        exact ih last

/-- The generator closes (hits its `break`) exactly when some observation
is terminal: status ready or error, or job absent. -/
theorem events_gen_closed_iff (obs : List (Option Job)) :
    ∀ last : Option SsePayload,
      (events_gen last obs).2 = true
        ↔ ∃ o ∈ obs, isTerminalPayload (payloadOf o) = true := by
  induction obs with
  | nil =>
    intro last
    simp [events_gen]
  | cons o rest ih =>
    intro last
    by_cases ht : isTerminalPayload (payloadOf o) = true
    · constructor
      · intro _
        exact ⟨o, List.mem_cons_self o rest, ht⟩
      · intro _
        by_cases hp : some (payloadOf o) ≠ last
        · rw [events_gen_cons_emit_term o rest last hp ht]
        · rw [events_gen_cons_skip_term o rest last hp ht]
    · have ht2 : isTerminalPayload (payloadOf o) = false := by simpa using ht
      by_cases hp : some (payloadOf o) ≠ last
      · rw [events_gen_cons_emit_go o rest last hp ht2]
        rw [ih (some (payloadOf o))]
        simp [ht2]
      · rw [events_gen_cons_skip_go o rest last hp ht2]
        rw [ih last]
        simp [ht2]

/-- The generator consumes observations only up to and including the first
terminal one: what follows is irrelevant. -/
theorem events_gen_stops_at_first_terminal (pre : List (Option Job)) :
    ∀ (last : Option SsePayload) (o : Option Job) (post : List (Option Job)),
      (∀ x ∈ pre, isTerminalPayload (payloadOf x) = false) →
      isTerminalPayload (payloadOf o) = true →
      events_gen last (pre ++ o :: post) = events_gen last (pre ++ [o]) := by
  induction pre with
  | nil =>
    intro last o post _ ht
    by_cases hp : some (payloadOf o) ≠ last
    · rw [List.nil_append, List.nil_append, events_gen_cons_emit_term o post last hp ht,
        events_gen_cons_emit_term o [] last hp ht]
    · rw [List.nil_append, List.nil_append, events_gen_cons_skip_term o post last hp ht,
        events_gen_cons_skip_term o [] last hp ht]
  | cons x pre ih =>
    intro last o post hpre ht
    have hx : isTerminalPayload (payloadOf x) = false := hpre x (List.mem_cons_self x pre)
    have hpre2 : ∀ y ∈ pre, isTerminalPayload (payloadOf y) = false :=
      fun y hy => hpre y (List.mem_cons_of_mem x hy)
    by_cases hp : some (payloadOf x) ≠ last
    · rw [List.cons_append, List.cons_append, events_gen_cons_emit_go x _ last hp hx,
        events_gen_cons_emit_go x _ last hp hx, ih (some (payloadOf x)) o post hpre2 ht]
    · rw [List.cons_append, List.cons_append, events_gen_cons_skip_go x _ last hp hx,
        events_gen_cons_skip_go x _ last hp hx, ih last o post hpre2 ht]

/-- When the job disappears after a run of non-terminal observations, the
stream emits exactly one `unknown` snapshot, as its final emission, and
closes. -/
theorem events_gen_absent_emits_unknown (pre : List (Option Job)) :
    ∀ (last : Option SsePayload) (post : List (Option Job)),
      (∀ x ∈ pre, isTerminalPayload (payloadOf x) = false) →
      last ≠ some SsePayload.unknown →
      (events_gen last (pre ++ (none : Option Job) :: post)).1.getLast?
          = some SsePayload.unknown
      ∧ (events_gen last (pre ++ (none : Option Job) :: post)).2 = true
      ∧ (events_gen last (pre ++ (none : Option Job) :: post)).1.count SsePayload.unknown = 1 := by
  induction pre with
  | nil =>
    intro last post _ hlast
    have hp : some (payloadOf (none : Option Job)) ≠ last := Ne.symm hlast
    have ht : isTerminalPayload (payloadOf (none : Option Job)) = true := rfl
    rw [List.nil_append, events_gen_cons_emit_term _ post last hp ht]
    refine ⟨rfl, rfl, by decide⟩
  | cons x pre ih =>
    intro last post hpre hlast
    have hx : isTerminalPayload (payloadOf x) = false := hpre x (List.mem_cons_self x pre)
    have hxne : payloadOf x ≠ SsePayload.unknown := by
      intro h
      rw [h] at hx
      simp [isTerminalPayload] at hx
    have hpre2 : ∀ y ∈ pre, isTerminalPayload (payloadOf y) = false :=
      fun y hy => hpre y (List.mem_cons_of_mem x hy)
    by_cases hp : some (payloadOf x) ≠ last
    · rw [List.cons_append, events_gen_cons_emit_go x _ last hp hx]
      obtain ⟨h1, h2, h3⟩ := ih (some (payloadOf x)) post hpre2 (by simpa using hxne)
      refine ⟨?_, h2, ?_⟩
      · rw [show payloadOf x :: (events_gen (some (payloadOf x)) (pre ++ (none : Option Job) :: post)).1
            = [payloadOf x] ++ (events_gen (some (payloadOf x)) (pre ++ (none : Option Job) :: post)).1
          from rfl, List.getLast?_append, h1]
        rfl
      · rw [List.count_cons, h3, beq_eq_false_iff_ne.mpr hxne]
        simp
    · rw [List.cons_append, events_gen_cons_skip_go x _ last hp hx]
      exact ih last post hpre2 hlast

/-- C8: the `/events` stream emits a snapshot only when it differs from
the previously emitted one (consecutive emitted snapshots are pairwise
distinct), its loop breaks exactly when an observed status is ready or
error or the job is absent, nothing after the first terminal observation
matters, and an absent job produces exactly one final `unknown` snapshot
before the stream closes. -/
theorem events_stream_dedup_and_termination :
    (∀ obs : List (Option Job), List.Chain' (fun a b => a ≠ b) (events_gen none obs).1)
    ∧ (∀ obs : List (Option Job),
        (events_gen none obs).2 = true ↔ ∃ o ∈ obs, isTerminalPayload (payloadOf o) = true)
    ∧ (∀ (pre : List (Option Job)) (o : Option Job) (post : List (Option Job)),
        (∀ x ∈ pre, isTerminalPayload (payloadOf x) = false) →
        isTerminalPayload (payloadOf o) = true →
        events_gen none (pre ++ o :: post) = events_gen none (pre ++ [o]))
    ∧ (∀ (pre post : List (Option Job)),
        (∀ x ∈ pre, isTerminalPayload (payloadOf x) = false) →
        (events_gen none (pre ++ (none : Option Job) :: post)).1.getLast?
            = some SsePayload.unknown
        ∧ (events_gen none (pre ++ (none : Option Job) :: post)).2 = true
        ∧ (events_gen none (pre ++ (none : Option Job) :: post)).1.count SsePayload.unknown
            = 1) :=
  ⟨fun obs => (events_gen_chain obs none).1,
   fun obs => events_gen_closed_iff obs none,
   fun pre o post h1 h2 => events_gen_stops_at_first_terminal pre none o post h1 h2,
   fun pre post h1 => events_gen_absent_emits_unknown pre none post h1 (by simp)⟩

/-- Witness for C8: a queued/running prefix, then a terminal (ready)
observation whose tail is ignored, and the absent-job case emitting one
`unknown`. -/
theorem events_stream_dedup_and_termination_witness :
    events_gen none (wObsPre ++ (some wJob5) :: [some wJob5])
        = events_gen none (wObsPre ++ [some wJob5])
    ∧ ((events_gen none (wObsPre ++ (none : Option Job) :: [])).1.getLast?
          = some SsePayload.unknown
        ∧ (events_gen none (wObsPre ++ (none : Option Job) :: [])).2 = true
        ∧ (events_gen none (wObsPre ++ (none : Option Job) :: [])).1.count SsePayload.unknown
            = 1) :=
  ⟨events_stream_dedup_and_termination.2.2.1 wObsPre (some wJob5) [some wJob5]
      (by decide) (by decide),
   events_stream_dedup_and_termination.2.2.2 wObsPre [] (by decide)⟩

/-! ### Helper lemmas: the janitor sweep -/

/-- The entries surviving a sweep are exactly those not older than the
cutoff. -/
theorem sweep_entries (now : Int) :
    ∀ (entries : List FsEntry) (jobs : JobsMap),
      (background_cleaner_sweep now entries jobs).1
        = entries.filter (fun e => !decide (e.mtime < now - 30 * 60)) := by
  intro entries
  induction entries with
  | nil => intro jobs; rfl
  | cons e es ih =>
    intro jobs
    by_cases he : e.mtime < now - 30 * 60
    · simp only [background_cleaner_sweep, if_pos he]
      rw [ih, List.filter_cons, if_neg (by simp; omega)]
    · simp only [background_cleaner_sweep, if_neg he]
      rw [ih, List.filter_cons, if_pos (by simp; omega)]

/-- The job records surviving a sweep are exactly those matching no
deleted (old) entry's path. -/
theorem sweep_jobs (now : Int) :
    ∀ (entries : List FsEntry) (jobs : JobsMap),
      (background_cleaner_sweep now entries jobs).2
        = jobs.filter (fun kv =>
            !(entries.any (fun e =>
              decide (e.mtime < now - 30 * 60) && jobMatchesPath kv.2 (entryPath e)))) := by
  intro entries
  induction entries with
  | nil =>
    intro jobs
    simp [background_cleaner_sweep]
  | cons e es ih =>
    intro jobs
    by_cases he : e.mtime < now - 30 * 60
    · simp only [background_cleaner_sweep, if_pos he]
      rw [ih, List.filter_filter]
      apply List.filter_congr
      intro kv _
      rw [List.any_cons, decide_eq_true he]
      simp [Bool.not_or, Bool.and_comm]
    · simp only [background_cleaner_sweep, if_neg he]
      rw [ih]
      apply List.filter_congr
      intro kv _
      rw [List.any_cons, decide_eq_false he]
      simp

/-- C9 (amended): a sweep deletes exactly the entries older than the
30-minute cutoff, and removes exactly the job records whose working
directory equals, or whose result path string-prefix-matches, some deleted
entry's path; every other entry and job record survives the sweep.  (The
original claim's unconditional protection of a young entry's job record is
refuted by `janitor_removes_young_jobs_record`: a record can
prefix-match a different, older entry's path.) -/
theorem janitor_sweep_deletion_rule (now : Int) (entries : List FsEntry) (jobs : JobsMap) :
    (∀ e ∈ entries, e.mtime < now - 30 * 60 →
        e ∉ (background_cleaner_sweep now entries jobs).1)
    ∧ (∀ e ∈ entries, ¬(e.mtime < now - 30 * 60) →
        e ∈ (background_cleaner_sweep now entries jobs).1)
    ∧ (∀ kv ∈ jobs,
        (∃ e ∈ entries, e.mtime < now - 30 * 60 ∧ jobMatchesPath kv.2 (entryPath e) = true) →
        kv ∉ (background_cleaner_sweep now entries jobs).2)
    ∧ (∀ kv ∈ jobs,
        (∀ e ∈ entries, e.mtime < now - 30 * 60 → jobMatchesPath kv.2 (entryPath e) = false) →
        kv ∈ (background_cleaner_sweep now entries jobs).2) := by
  rw [sweep_entries now entries jobs, sweep_jobs now entries jobs]
  refine ⟨?_, ?_, ?_, ?_⟩
  · intro e _ hold hmem
    have := (List.mem_filter.mp hmem).2
    simp at this
    omega
  · intro e he hyoung
    exact List.mem_filter.mpr ⟨he, by simp; omega⟩
  · intro kv _ hex hmem
    obtain ⟨e, he, hold, hmatch⟩ := hex
    have hpred := (List.mem_filter.mp hmem).2
    have hany : entries.any (fun e =>
        decide (e.mtime < now - 30 * 60) && jobMatchesPath kv.2 (entryPath e)) = true :=
      List.any_eq_true.mpr ⟨e, he, by simp [hmatch]; omega⟩
    rw [hany] at hpred
    simp at hpred
  · intro kv hkv hnone
    refine List.mem_filter.mpr ⟨hkv, ?_⟩
    have hany : entries.any (fun e =>
        decide (e.mtime < now - 30 * 60) && jobMatchesPath kv.2 (entryPath e)) = false := by
      rw [List.any_eq_false]
      intro e he
      by_cases hold : e.mtime < now - 30 * 60
      · simp [hnone e he hold]
      · simp
        omega
    rw [hany]
    rfl

/-- Witness for C9 (amended): the old entry is deleted, the young entry
survives, the prefix-matching record is removed and the non-matching
record survives. -/
theorem janitor_sweep_deletion_rule_witness :
    (cxOld ∉ (background_cleaner_sweep 100000 [cxOld, cxYoung] wSweepJobs).1)
    ∧ (cxYoung ∈ (background_cleaner_sweep 100000 [cxOld, cxYoung] wSweepJobs).1)
    ∧ (("abc", cxJob) ∉ (background_cleaner_sweep 100000 [cxOld, cxYoung] wSweepJobs).2)
    ∧ (("zz", wJob5) ∈ (background_cleaner_sweep 100000 [cxOld, cxYoung] wSweepJobs).2) :=
  ⟨(janitor_sweep_deletion_rule 100000 [cxOld, cxYoung] wSweepJobs).1 cxOld
      (by decide) (by decide),
   (janitor_sweep_deletion_rule 100000 [cxOld, cxYoung] wSweepJobs).2.1 cxYoung
      (by decide) (by decide),
   (janitor_sweep_deletion_rule 100000 [cxOld, cxYoung] wSweepJobs).2.2.1 ("abc", cxJob)
      (by decide) ⟨cxOld, by decide, by decide, by decide⟩,
   (janitor_sweep_deletion_rule 100000 [cxOld, cxYoung] wSweepJobs).2.2.2 ("zz", wJob5)
      (by decide) (by decide)⟩

end InstaWeb
